import Mathlib

/-
Verification development for the per-entity forecasting wrapper in
src/src/prediction/predictor_model.py (class Forecaster and its helpers).

Shallow embedding conventions:
  - a pandas panel DataFrame is a list of rows; each row carries the value of
    the identifier column (modelled as a natural number, since pandas orders
    group keys by the column values), the time column, the target column and
    the covariate columns;
  - a per-series frame (identifier column dropped) is a list of SRow;
  - Python dicts keyed by identifier are association lists with distinct keys;
  - Python None / truthiness of optional integers is Option Nat with
    pyTruthy below;
  - exceptions are an Except monad over PyError;
  - numpy global random state is GlobalRng, threaded explicitly; the field
    seedCalls counts invocations of np.random.seed;
  - the external statistical library (darts AutoARIMA) is out of scope per the
    spec; it is modelled as a deterministic collaborator: fitting captures its
    inputs and the ambient random state, predicting returns a horizon-length
    series determined by the trained artifact (naive last-value stand-in).
-/

/-- Schema contract consumed by the Forecaster (schema.data_schema.ForecastingSchema):
column names, covariate column name lists, and the forecast horizon. -/
structure ForecastingSchema where
  id_col : String
  time_col : String
  target : String
  future_covariates : List String
  static_covariates : List String
  forecast_length : Nat
deriving DecidableEq, Repr

/-- One row of a panel DataFrame: identifier value, time value, target value,
covariate values (one entry per covariate column). -/
structure Row where
  id : Nat
  time : Int
  target : Int
  cov : List Int
deriving DecidableEq, Repr

/-- One row of a per-series frame, after the identifier column is dropped. -/
structure SRow where
  time : Int
  target : Int
  cov : List Int
deriving DecidableEq, Repr

/-- Dropping the identifier column from a panel row. -/
def Row.dropId (r : Row) : SRow :=
  { time := r.time, target := r.target, cov := r.cov }

/-- Python errors that the embedded code can raise. -/
inductive PyError where
  | notFitted
  | keyError (key : Nat)
  | valueError (msg : String)
  | attributeError (msg : String)
deriving DecidableEq, Repr

/-- Global numpy random state; seedCalls counts how many times
np.random.seed has been invoked. -/
structure GlobalRng where
  state : Nat
  seedCalls : Nat
deriving DecidableEq, Repr

/-- np.random.seed(s): resets the global state, one more seed call. -/
def npRandomSeed (s : Nat) (g : GlobalRng) : GlobalRng :=
  { state := s, seedCalls := g.seedCalls + 1 }

/-- Modelled from the spec: the external statistical fitting primitive
(darts AutoARIMA) is an external collaborator outside this repository; its
trained artifact is modelled as the data it was fit on (series and optional
covariates) plus the random state at fit time. -/
structure TrainedModel where
  fittedRows : List SRow
  fittedCov : Option (List (List Int))
  rngAtFit : Nat
deriving DecidableEq, Repr

/-- Modelled from the spec: the external collaborator exposes
predict(horizon, future_covariates) -> series; modelled as a deterministic
function of the trained artifact and the horizon (naive last-value forecast). -/
def TrainedModel.predict (m : TrainedModel) (n : Nat)
    (_future_covariates : Option (List (List Int))) : List Int :=
  List.replicate n (match m.fittedRows.getLast? with
    | some r => r.target
    | none => 0)

/-- Truthiness of a Python optional nonnegative integer:
None and 0 are falsy, any nonzero integer is truthy. -/
def pyTruthy : Option Nat → Bool
  | none => false
  | some k => k != 0

/-- NUM_CPUS_PER_BATCH = 1 (module-level constant). -/
def NUM_CPUS_PER_BATCH : Nat := 1

/-- CPUS_TO_USE = max(1, cpu_count() - 1) (module-level constant, here a
function of the ambient cpu count). -/
def CPUS_TO_USE (cpu_count : Nat) : Nat := max 1 (cpu_count - 1)

/-- Batch size selection inside Forecaster.fit:
series_per_batch = 1 if len(all_ids) <= num_parallel_batches
else 1 + len(all_ids) // num_parallel_batches. -/
def seriesPerBatch (n num_parallel_batches : Nat) : Nat :=
  if n ≤ num_parallel_batches then 1 else 1 + n / num_parallel_batches

/-- Structural worker for chunkList: fuel bounds the number of slices taken;
fuel = length of the list always suffices since every slice consumes at least
one element. -/
def chunkListFuel {α : Type} : Nat → Nat → List α → List (List α)
  | _, _, [] => []
  | 0, _, _ :: _ => []
  | fuel + 1, b, x :: xs =>
      if b = 0 then []
      else (x :: xs).take b :: chunkListFuel fuel b ((x :: xs).drop b)

/-- Contiguous slicing at stride b, mirroring
[xs[i : i + b] for i in range(0, len(xs), b)]. The b = 0 case is unreachable
in the program (seriesPerBatch is always at least 1). -/
def chunkList {α : Type} (b : Nat) (l : List α) : List (List α) :=
  chunkListFuel l.length b l

/-- The rows of a panel that belong to one identifier, with the identifier
column dropped: groups_by_ids.get_group(id_).drop(columns=id_col), except that
here the empty list stands for the KeyError that get_group raises on an absent
key (callers test for emptiness). Group rows keep the panel's row order. -/
def getGroup (rows : List Row) (i : Nat) : List SRow :=
  (rows.filter (fun r => r.id == i)).map Row.dropId

/-- Identifiers of a panel in first-seen (first occurrence in row order)
order. This is the order the spec claims for the canonical identifier list;
pandas groupby actually sorts the keys (see groupKeys). -/
def firstSeenIds (rows : List Row) : List Nat :=
  rows.foldl (fun acc r => if r.id ∈ acc then acc else acc ++ [r.id]) []

/-- list(history.groupby(id_col).groups.keys()): pandas groupby with the
default sort=True yields the distinct identifier values in ascending order. -/
def groupKeys (rows : List Row) : List Nat :=
  (firstSeenIds rows).insertionSort (fun a b => a ≤ b)

/-- The ensemble wrapper class Forecaster. The source attribute
history_forecast_ratio is called history_forecast_factor here;
add_encoders and the pass-through autoarima kwargs carry no behavior in the
embedding and are omitted. -/
structure Forecaster where
  data_schema : ForecastingSchema
  history_forecast_factor : Option Nat
  _is_trained : Bool
  models : List (Nat × TrainedModel)
  all_ids : List Nat
  history_length : Option Nat
deriving DecidableEq, Repr

/-- Forecaster.__init__: untrained, empty model mapping; history_length is set
to forecast_length * ratio only when the ratio is truthy
(if history_forecast_ratio:). -/
def Forecaster.init (data_schema : ForecastingSchema)
    (history_forecast_factor : Option Nat) : Forecaster :=
  { data_schema := data_schema
    history_forecast_factor := history_forecast_factor
    _is_trained := false
    models := []
    all_ids := []
    history_length :=
      if pyTruthy history_forecast_factor then
        some (data_schema.forecast_length * history_forecast_factor.getD 0)
      else none }

/-- Truncation at the start of the per-series loop in fit_batch_of_series:
if self.history_length: series = series[-self.history_length:].
A negative-index slice keeps the last history_length rows (all rows when the
series is shorter). -/
def truncateSeries (history_length : Option Nat) (series : List SRow) :
    List SRow :=
  if pyTruthy history_length then
    series.drop (series.length - history_length.getD 0)
  else series

/-- Forecaster._fit_on_series: builds the covariate frame when the union of
future and static covariate columns is nonempty, then fits the external
primitive on the series, consuming one step of random state. -/
def Forecaster._fit_on_series (_f : Forecaster) (history : List SRow)
    (data_schema : ForecastingSchema) (rng : Nat) : TrainedModel × Nat :=
  let covNames := data_schema.future_covariates ++ data_schema.static_covariates
  let future_covariates : Option (List (List Int)) :=
    if covNames.isEmpty then none else some (history.map (fun r => r.cov))
  ({ fittedRows := history, fittedCov := future_covariates, rngAtFit := rng },
   rng + 1)

/-- Forecaster.fit_batch_of_series: sequentially over zip(series_batch,
ids_batch), truncate by history_length, fit, and record id -> model in
insertion order. The worker process starts from the random state rng. -/
def Forecaster.fit_batch_of_series (f : Forecaster) :
    List (List SRow) → List Nat → ForecastingSchema → Nat →
    List (Nat × TrainedModel)
  | [], _, _, _ => []
  | _ :: _, [], _, _ => []
  | s :: ss, i :: is, data_schema, rng =>
      let series := truncateSeries f.history_length s
      let mr := f._fit_on_series series data_schema rng
      (i, mr.1) :: f.fit_batch_of_series ss is data_schema mr.2

/-- Forecaster.fit: seed numpy once, group the history by identifier (pandas
sorts the group keys), partition series and identifiers into contiguous
batches, fan the batches out to a process pool (each worker inherits the
just-seeded random state), merge the per-batch mappings, and mark the ensemble
trained. Pool(processes=0) - reached exactly when there are no batches -
raises ValueError. -/
def Forecaster.fit (f : Forecaster) (cpus_to_use : Nat) (g : GlobalRng)
    (history : List Row) (data_schema : ForecastingSchema) :
    Except PyError (Forecaster × GlobalRng) :=
  let g1 := npRandomSeed 0 g
  let all_ids := groupKeys history
  let all_series := all_ids.map (fun i => getGroup history i)
  let num_parallel_batches := cpus_to_use / NUM_CPUS_PER_BATCH
  let series_per_batch := seriesPerBatch all_ids.length num_parallel_batches
  let series_batches := chunkList series_per_batch all_series
  let id_batches := chunkList series_per_batch all_ids
  if series_batches.length = 0 then
    Except.error (PyError.valueError "Number of processes must be at least 1")
  else
    let results := (series_batches.zip id_batches).map
      (fun bp => f.fit_batch_of_series bp.1 bp.2 data_schema g1.state)
    Except.ok
      ({ f with
          models := results.flatten
          all_ids := all_ids
          _is_trained := true
          data_schema := data_schema },
       g1)

/-- The list comprehension at the top of Forecaster.predict:
[groups_by_ids.get_group(id_).drop(columns=id_col) for id_ in all_ids].
get_group raises KeyError when the panel holds no rows for a requested
identifier; the whole comprehension runs before any forecasting. -/
def extractGroups : List Nat → List Row → Except PyError (List (List SRow))
  | [], _ => Except.ok []
  | i :: rest, test_data =>
      if (getGroup test_data i).isEmpty then
        Except.error (PyError.keyError i)
      else
        match extractGroups rest test_data with
        | Except.error e => Except.error e
        | Except.ok gs => Except.ok (getGroup test_data i :: gs)

/-- Forecaster._predict_on_series: build the covariate frame if covariate
columns exist, then - when a model is present for the key - forecast
len(future_df) steps and overwrite the target column positionally; when no
model is present, return None (future_df = None). -/
def Forecaster._predict_on_series (f : Forecaster) (key : Nat)
    (future_df : List SRow) : Option (List SRow) :=
  let covariates_names :=
    f.data_schema.future_covariates ++ f.data_schema.static_covariates
  let covariates : Option (List (List Int)) :=
    if covariates_names.isEmpty then none
    else some (future_df.map (fun r => r.cov))
  match f.models.lookup key with
  | some m =>
      let vals := m.predict future_df.length covariates
      some (future_df.zipWith (fun r v => { r with target := v }) vals)
  | none => none

/-- The forecast loop of Forecaster.predict: for each identifier and its
future rows, _predict_on_series; forecast.insert(0, id_col, id_) re-attaches
the identifier as the first column, and raises AttributeError when the
forecast is None. -/
def Forecaster.forecastLoop (f : Forecaster) :
    List (Nat × List SRow) → Except PyError (List (List Row))
  | [] => Except.ok []
  | (i, sdf) :: rest =>
      match f._predict_on_series i sdf with
      | none =>
          Except.error
            (PyError.attributeError "NoneType object has no attribute insert")
      | some frows =>
          match Forecaster.forecastLoop f rest with
          | Except.error e => Except.error e
          | Except.ok others =>
              Except.ok
                ((frows.map (fun r =>
                    ({ id := i, time := r.time, target := r.target,
                       cov := r.cov } : Row))) :: others)

/-- The result table of predict: the concatenated per-identifier forecast
rows, with the target column renamed to the caller-supplied prediction column
name. -/
structure ForecastTable where
  predColName : String
  rows : List Row
deriving DecidableEq, Repr

/-- Forecaster.predict: NotFittedError when untrained; extract every trained
identifier's future rows (KeyError if absent); forecast series by series in
all_ids order; pd.concat raises ValueError on an empty list of frames;
rename the target column to prediction_col_name. -/
def Forecaster.predict (f : Forecaster) (test_data : List Row)
    (prediction_col_name : String) : Except PyError ForecastTable :=
  if !f._is_trained then Except.error PyError.notFitted
  else
    match extractGroups f.all_ids test_data with
    | Except.error e => Except.error e
    | Except.ok all_series =>
        match f.forecastLoop (f.all_ids.zip all_series) with
        | Except.error e => Except.error e
        | Except.ok all_forecasts =>
            if all_forecasts.isEmpty then
              Except.error (PyError.valueError "No objects to concatenate")
            else
              Except.ok
                { predColName := prediction_col_name
                  rows := all_forecasts.flatten }

/-- Forecaster.save: NotFittedError when untrained; otherwise joblib.dump of
the whole object graph. The serialized blob is modelled as the object graph
itself (joblib round-trips the full object). -/
def Forecaster.save (f : Forecaster) : Except PyError Forecaster :=
  if !f._is_trained then Except.error PyError.notFitted
  else Except.ok f

/-- Forecaster.load: joblib.load of the saved blob returns the reconstructed
ensemble. -/
def Forecaster.load (blob : Forecaster) : Forecaster := blob

/-- Concrete example schema: no covariates, horizon 2. -/
def schemaEx : ForecastingSchema :=
  { id_col := "id", time_col := "t", target := "y",
    future_covariates := [], static_covariates := [], forecast_length := 2 }

/-- An arbitrary concrete ambient random state. -/
def g0 : GlobalRng := { state := 7, seedCalls := 0 }

/-- Concrete history panel: identifier 2 appears before identifier 1. -/
def histEx : List Row :=
  [ { id := 2, time := 0, target := 10, cov := [] },
    { id := 2, time := 1, target := 11, cov := [] },
    { id := 1, time := 0, target := 20, cov := [] },
    { id := 1, time := 1, target := 21, cov := [] } ]

/-- Concrete future panel with one row for each trained identifier. -/
def futEx : List Row :=
  [ { id := 1, time := 2, target := 0, cov := [] },
    { id := 2, time := 2, target := 0, cov := [] } ]

/-- Concrete future panel that omits trained identifier 2. -/
def futOnly1 : List Row :=
  [ { id := 1, time := 2, target := 0, cov := [] } ]

/-- The ensemble obtained by fitting histEx (3 ambient cpus). -/
def trainedEx : Forecaster :=
  match (Forecaster.init schemaEx none).fit 3 g0 histEx schemaEx with
  | Except.ok p => p.1
  | Except.error _ => Forecaster.init schemaEx none

/-- A trained ensemble whose canonical identifier list holds identifier 5
while the model mapping has no entry for it (the state the missing-model
branch of _predict_on_series guards). -/
def brokenEx : Forecaster :=
  { data_schema := schemaEx
    history_forecast_factor := none
    _is_trained := true
    models := []
    all_ids := [5]
    history_length := none }

/-- Fuel irrelevance for chunkListFuel: any fuel at least the list length
computes the same slicing. -/
theorem chunkListFuel_congr {α : Type} :
    ∀ (fuel1 fuel2 b : Nat) (l : List α), l.length ≤ fuel1 →
      l.length ≤ fuel2 → 0 < b →
      chunkListFuel fuel1 b l = chunkListFuel fuel2 b l := by
  intro fuel1
  induction fuel1 with
  | zero =>
      intro fuel2 b l h1 h2 hb
      have : l = [] := List.eq_nil_of_length_eq_zero (Nat.le_zero.mp h1)
      subst this
      cases fuel2 <;> rfl
  | succ f1 ih =>
      intro fuel2 b l h1 h2 hb
      cases l with
      | nil => cases fuel2 <;> rfl
      | cons x xs =>
          cases fuel2 with
          | zero => simp at h2
          | succ f2 =>
              simp only [chunkListFuel, if_neg (Nat.pos_iff_ne_zero.mp hb)]
              have hd : ((x :: xs).drop b).length ≤ f1 := by
                simp only [List.length_drop, List.length_cons]
                simp only [List.length_cons] at h1
                omega
              have hd2 : ((x :: xs).drop b).length ≤ f2 := by
                simp only [List.length_drop, List.length_cons]
                simp only [List.length_cons] at h2
                omega
              rw [ih f2 b _ hd hd2 hb]

/-- Unfolding equation for chunkList on a nonempty list and nonzero stride. -/
theorem chunkList_cons {α : Type} {b : Nat} (hb : 0 < b) (x : α)
    (xs : List α) :
    chunkList b (x :: xs)
      = (x :: xs).take b :: chunkList b ((x :: xs).drop b) := by
  show chunkListFuel (x :: xs).length b (x :: xs) = _
  simp only [List.length_cons, chunkListFuel, if_neg (Nat.pos_iff_ne_zero.mp hb)]
  rw [chunkListFuel_congr xs.length ((x :: xs).drop b).length b _
        (by simp [List.length_drop]; omega)
        (Nat.le_refl _) hb]
  rfl

/-- The slices of chunkList concatenate back to the original list. -/
theorem chunkList_flatten {α : Type} {b : Nat} (hb : 0 < b) :
    ∀ (fuel : Nat) (l : List α), l.length ≤ fuel →
      (chunkList b l).flatten = l := by
  intro fuel
  induction fuel with
  | zero =>
      intro l h1
      have : l = [] := List.eq_nil_of_length_eq_zero (Nat.le_zero.mp h1)
      subst this; rfl
  | succ f ih =>
      intro l h1
      cases l with
      | nil => rfl
      | cons x xs =>
          rw [chunkList_cons hb, List.flatten_cons,
              ih _ (by simp only [List.length_drop, List.length_cons];
                       simp only [List.length_cons] at h1; omega),
              List.take_append_drop]

/-- chunkList yields at most as many slices as there are elements. -/
theorem chunkList_count_le_length {α : Type} {b : Nat} (hb : 0 < b) :
    ∀ (fuel : Nat) (l : List α), l.length ≤ fuel →
      (chunkList b l).length ≤ l.length := by
  intro fuel
  induction fuel with
  | zero =>
      intro l h1
      have : l = [] := List.eq_nil_of_length_eq_zero (Nat.le_zero.mp h1)
      subst this; simp [chunkList, chunkListFuel]
  | succ f ih =>
      intro l h1
      cases l with
      | nil => simp [chunkList, chunkListFuel]
      | cons x xs =>
          rw [chunkList_cons hb]
          simp only [List.length_cons]
          have hd : ((x :: xs).drop b).length ≤ f := by
            simp only [List.length_drop, List.length_cons]
            simp only [List.length_cons] at h1; omega
          have := ih _ hd
          simp only [List.length_drop, List.length_cons] at this
          omega

/-- chunkList yields at most w slices when the list has at most w * b
elements. -/
theorem chunkList_count_le_of_le_mul {α : Type} {b : Nat} (hb : 0 < b) :
    ∀ (w : Nat) (l : List α), l.length ≤ w * b →
      (chunkList b l).length ≤ w := by
  intro w
  induction w with
  | zero =>
      intro l h1
      have hl : l = [] := by simpa using h1
      subst hl; simp [chunkList, chunkListFuel]
  | succ w ih =>
      intro l h1
      cases l with
      | nil => simp [chunkList, chunkListFuel]
      | cons x xs =>
          rw [chunkList_cons hb]
          simp only [List.length_cons]
          have hd : ((x :: xs).drop b).length ≤ w * b := by
            simp only [List.length_drop, List.length_cons]
            have : (w + 1) * b = w * b + b := by ring
            rw [this] at h1
            simp only [List.length_cons] at h1
            omega
          have := ih _ hd
          omega

/-- chunkList commutes with mapping a function over the elements: the
identifier batches and the series batches of fit are aligned positionally. -/
theorem chunkList_map {α β : Type} {b : Nat} (hb : 0 < b) (f : α → β) :
    ∀ (fuel : Nat) (l : List α), l.length ≤ fuel →
      chunkList b (l.map f) = (chunkList b l).map (List.map f) := by
  intro fuel
  induction fuel with
  | zero =>
      intro l h1
      have : l = [] := List.eq_nil_of_length_eq_zero (Nat.le_zero.mp h1)
      subst this; rfl
  | succ fu ih =>
      intro l h1
      cases l with
      | nil => rfl
      | cons x xs =>
          have e1 : (x :: xs).map f = f x :: xs.map f := rfl
          have hd : ((x :: xs).drop b).length ≤ fu := by
            simp only [List.length_drop, List.length_cons]
            simp only [List.length_cons] at h1; omega
          rw [e1, chunkList_cons hb, chunkList_cons hb, List.map_cons,
              ← e1, ← List.map_take, ← List.map_drop, ih _ hd]

/-- C2 counterexample: fitting a freshly constructed ensemble on a history
panel with zero identifiers does not complete: creating the worker pool with
zero processes raises ValueError, refuting the claim that fit completes and
produces an empty mapping. -/
theorem c2_counterexample_empty_fit_errors :
    (Forecaster.init schemaEx none).fit 3 g0 [] schemaEx
      = Except.error (PyError.valueError "Number of processes must be at least 1") :=
  rfl

/-- C2 amended: for every ensemble, worker count, ambient random state and
schema, fit on a history panel with zero identifiers raises ValueError (the
process pool is created with zero processes); no trained ensemble is
produced. -/
theorem c2_amended_empty_fit_valueerror (f : Forecaster) (W : Nat)
    (g : GlobalRng) (ds : ForecastingSchema) :
    f.fit W g [] ds
      = Except.error (PyError.valueError "Number of processes must be at least 1") :=
  rfl

/-- C3: an identifier (5) that is in the canonical training-time identifier
list but absent from the trained model mapping is not silently excluded:
_predict_on_series returns None for it and predict then raises
AttributeError calling insert on None. -/
theorem c3_missing_model_attributeerror :
    brokenEx.predict
        [ { id := 5, time := 2, target := 0, cov := [] } ] "pred"
      = Except.error
          (PyError.attributeError "NoneType object has no attribute insert") :=
  rfl

/-- C7: persistence round-trip: predicting with the ensemble reloaded from a
save yields exactly the forecast table of predicting with the original
ensemble, for every future panel and output column name. -/
theorem c7_save_load_roundtrip (f b : Forecaster) (t : List Row) (c : String)
    (hs : f.save = Except.ok b) :
    (Forecaster.load b).predict t c = f.predict t c := by
  rw [Forecaster.save] at hs
  split at hs
  · cases hs
  · injection hs with h
    rw [Forecaster.load, h]

/-- C7 witness: the round-trip equality instantiated on the concrete trained
ensemble and future panel. -/
theorem c7_witness :
    (Forecaster.load trainedEx).predict futEx "pred"
      = trainedEx.predict futEx "pred" :=
  c7_save_load_roundtrip trainedEx trainedEx futEx "pred" rfl

/-- C10: constructing the Forecaster with history_forecast_ratio 0 behaves
exactly like passing None: history_length remains unset, truncation is the
identity, and batch fitting produces the same models as the None-configured
ensemble (every series fit on all of its rows). -/
theorem c10_zero_factor_like_none (ds : ForecastingSchema) :
    (Forecaster.init ds (some 0)).history_length = none
    ∧ (Forecaster.init ds (some 0)).history_length
        = (Forecaster.init ds none).history_length
    ∧ (∀ s : List SRow,
        truncateSeries (Forecaster.init ds (some 0)).history_length s = s)
    ∧ (∀ batch ids sc g,
        (Forecaster.init ds (some 0)).fit_batch_of_series batch ids sc g
          = (Forecaster.init ds none).fit_batch_of_series batch ids sc g)
    ∧ (∀ batch ids sc g p,
        p ∈ (Forecaster.init ds (some 0)).fit_batch_of_series batch ids sc g →
        p.2.fittedRows ∈ batch) := by
  refine ⟨rfl, rfl, fun s => rfl, ?_, ?_⟩
  · intro batch
    induction batch with
    | nil => intro ids sc g; rfl
    | cons s ss ih =>
        intro ids sc g
        cases ids with
        | nil => rfl
        | cons i is =>
            simp only [Forecaster.fit_batch_of_series]
            congr 1
            exact ih is sc _
  · intro batch
    induction batch with
    | nil => intro ids sc g p hp; simp [Forecaster.fit_batch_of_series] at hp
    | cons s ss ih =>
        intro ids sc g p hp
        cases ids with
        | nil => simp [Forecaster.fit_batch_of_series] at hp
        | cons i is =>
            simp only [Forecaster.fit_batch_of_series, List.mem_cons] at hp
            cases hp with
            | inl h =>
                subst h
                simp [Forecaster._fit_on_series, truncateSeries,
                      Forecaster.init, pyTruthy]
            | inr h => exact List.mem_cons_of_mem _ (ih is sc _ p h)

/-- Every error raised by the group-extraction comprehension of predict is a
KeyError. -/
theorem extractGroups_error_is_keyError :
    ∀ {ids : List Nat} {t : List Row} {e : PyError},
      extractGroups ids t = Except.error e → ∃ k, e = PyError.keyError k := by
  intro ids
  induction ids with
  | nil => intro t e h; simp [extractGroups] at h
  | cons i rest ih =>
      intro t e h
      simp only [extractGroups] at h
      split at h
      · exact ⟨i, by injection h with h2; exact h2.symm⟩
      · split at h
        · next e2 heq => injection h with h2; exact h2 ▸ ih heq
        · cases h

/-- Every error raised by the forecast loop of predict is the AttributeError
from calling insert on a None forecast. -/
theorem forecastLoop_error_is_attr {f : Forecaster} :
    ∀ {ps : List (Nat × List SRow)} {e : PyError},
      f.forecastLoop ps = Except.error e →
      e = PyError.attributeError "NoneType object has no attribute insert" := by
  intro ps
  induction ps with
  | nil => intro e h; simp [Forecaster.forecastLoop] at h
  | cons p rest ih =>
      intro e h
      obtain ⟨i, sdf⟩ := p
      simp only [Forecaster.forecastLoop] at h
      split at h
      · injection h with h2; exact h2.symm
      · split at h
        · next e2 heq => injection h with h2; exact h2 ▸ ih heq
        · cases h

/-- C6: on an ensemble in the Untrained state, predict and save both raise
NotFittedError; in the Trained state both pass this check: save succeeds and
predict never raises NotFittedError. -/
theorem c6_not_trained_guard (f : Forecaster) (t : List Row) (c : String) :
    (f._is_trained = false →
      f.predict t c = Except.error PyError.notFitted ∧
      f.save = Except.error PyError.notFitted)
    ∧ (f._is_trained = true →
      f.save = Except.ok f ∧ f.predict t c ≠ Except.error PyError.notFitted) := by
  constructor
  · intro h
    constructor
    · rw [Forecaster.predict]; simp [h]
    · rw [Forecaster.save]; simp [h]
  · intro h
    refine ⟨by rw [Forecaster.save]; simp [h], ?_⟩
    intro hc
    rw [Forecaster.predict] at hc
    simp only [h, Bool.not_true, Bool.false_eq_true, if_false] at hc
    split at hc
    · next e heq =>
        obtain ⟨k, hk⟩ := extractGroups_error_is_keyError heq
        injection hc with h2
        rw [h2] at hk
        cases hk
    · split at hc
      · next e heq =>
          have ha := forecastLoop_error_is_attr heq
          injection hc with h2
          rw [h2] at ha
          cases ha
      · split at hc
        · injection hc with h2; cases h2
        · cases hc

/-- C6 witness: the guard evaluated on a freshly constructed (never fitted)
ensemble and on the concrete trained ensemble. -/
theorem c6_witness :
    ((Forecaster.init schemaEx none).predict futEx "pred"
        = Except.error PyError.notFitted
      ∧ (Forecaster.init schemaEx none).save = Except.error PyError.notFitted)
    ∧ (trainedEx.save = Except.ok trainedEx
      ∧ trainedEx.predict futEx "pred" ≠ Except.error PyError.notFitted) :=
  ⟨(c6_not_trained_guard (Forecaster.init schemaEx none) futEx "pred").1 rfl,
   (c6_not_trained_guard trainedEx futEx "pred").2 rfl⟩

/-- C9: when a history-window ratio r is configured (and the window
forecast_length * r is nonzero, as guaranteed by the schema contract
horizon > 0 and a configured nonzero ratio), fitting uses only the most
recent forecast_length * r rows of every series: history_length is the
window, truncation keeps exactly the last window rows, a series shorter than
the window is used whole with no error, and every model fitted by a batch is
fit on the truncated rows of its series. -/
theorem c9_history_truncation (ds : ForecastingSchema) (r : Nat)
    (hr : ds.forecast_length * r ≠ 0) :
    (Forecaster.init ds (some r)).history_length
        = some (ds.forecast_length * r)
    ∧ (∀ s : List SRow,
        truncateSeries (Forecaster.init ds (some r)).history_length s
          = s.drop (s.length - ds.forecast_length * r))
    ∧ (∀ s : List SRow,
        (truncateSeries (Forecaster.init ds (some r)).history_length s).length
          = min (ds.forecast_length * r) s.length)
    ∧ (∀ s : List SRow, s.length ≤ ds.forecast_length * r →
        truncateSeries (Forecaster.init ds (some r)).history_length s = s)
    ∧ (∀ batch ids sc g p,
        p ∈ (Forecaster.init ds (some r)).fit_batch_of_series batch ids sc g →
        ∃ s ∈ batch,
          p.2.fittedRows = s.drop (s.length - ds.forecast_length * r)) := by
  have hr0 : r ≠ 0 := by
    intro h0; exact hr (by simp [h0])
  have hinit : (Forecaster.init ds (some r)).history_length
      = some (ds.forecast_length * r) := by
    simp [Forecaster.init, pyTruthy, hr0]
  have htr : ∀ s : List SRow,
      truncateSeries (Forecaster.init ds (some r)).history_length s
        = s.drop (s.length - ds.forecast_length * r) := by
    intro s
    rw [hinit]
    simp only [truncateSeries, pyTruthy, Option.getD_some]
    rw [if_pos (by simpa using hr)]
  refine ⟨hinit, htr, ?_, ?_, ?_⟩
  · intro s
    rw [htr s]
    simp only [List.length_drop]
    omega
  · intro s hs
    rw [htr s]
    have : s.length - ds.forecast_length * r = 0 := by omega
    rw [this, List.drop_zero]
  · intro batch
    induction batch with
    | nil => intro ids sc g p hp; simp [Forecaster.fit_batch_of_series] at hp
    | cons s ss ih =>
        intro ids sc g p hp
        cases ids with
        | nil => simp [Forecaster.fit_batch_of_series] at hp
        | cons i is =>
            simp only [Forecaster.fit_batch_of_series, List.mem_cons] at hp
            cases hp with
            | inl h =>
                subst h
                exact ⟨s, List.mem_cons_self s ss,
                  by simp [Forecaster._fit_on_series, htr s]⟩
            | inr h =>
                obtain ⟨s2, hs2, he⟩ := ih is sc _ p h
                exact ⟨s2, List.mem_cons_of_mem _ hs2, he⟩

/-- C9 witness: horizon 2 and ratio 3 on a 10-row series: the window is 6 and
the fitted rows are the last 6; a 4-row series is used whole. -/
theorem c9_witness :
    (Forecaster.init schemaEx (some 3)).history_length = some 6
    ∧ (∀ s : List SRow, s.length ≤ 6 →
        truncateSeries (Forecaster.init schemaEx (some 3)).history_length s
          = s) := by
  have h := c9_history_truncation schemaEx 3 (by decide)
  exact ⟨h.1, fun s hs => h.2.2.2.1 s hs⟩

/-- C8: the numpy seed is set exactly once per fit invocation: the returned
global state records exactly one more seed call, independent of the number of
series; and fit is insensitive to the ambient random state at call time, so
two fit invocations on identical history and schema produce equal trained
ensembles and hence identical predictions. -/
theorem c8_seed_once_determinism (f : Forecaster) (W : Nat)
    (g1 g2 : GlobalRng) (history : List Row) (ds : ForecastingSchema)
    (f1 f2 : Forecaster) (h1 h2 : GlobalRng)
    (e1 : f.fit W g1 history ds = Except.ok (f1, h1))
    (e2 : f.fit W g2 history ds = Except.ok (f2, h2)) :
    h1.seedCalls = g1.seedCalls + 1 ∧ f1 = f2
    ∧ ∀ t c, f1.predict t c = f2.predict t c := by
  rw [Forecaster.fit] at e1 e2
  simp only [npRandomSeed] at e1 e2
  split at e1
  · cases e1
  · split at e2
    · cases e2
    · simp only [Except.ok.injEq, Prod.mk.injEq] at e1 e2
      obtain ⟨ef1, eh1⟩ := e1
      obtain ⟨ef2, eh2⟩ := e2
      constructor
      · rw [← eh1]
      · have : f1 = f2 := by rw [← ef1, ← ef2]
        exact ⟨this, fun t c => by rw [this]⟩

/-- C8 witness: two concrete fit invocations from different ambient random
states agree, and the seed-call counter advanced exactly once. -/
theorem c8_witness :
    ({ state := 7, seedCalls := 0 } : GlobalRng).seedCalls + 1 = 1
    ∧ trainedEx = trainedEx := by
  have h := c8_seed_once_determinism (Forecaster.init schemaEx none) 3
    g0 { state := 99, seedCalls := 5 } histEx schemaEx
    trainedEx trainedEx { state := 0, seedCalls := 1 }
    { state := 0, seedCalls := 6 } rfl rfl
  exact ⟨h.1, h.2.1⟩

/-- The batch size chosen by fit is always at least 1. -/
theorem seriesPerBatch_pos (n w : Nat) : 0 < seriesPerBatch n w := by
  rw [seriesPerBatch]
  split
  · exact Nat.zero_lt_one
  · exact Nat.lt_of_lt_of_le Nat.zero_lt_one (Nat.le_add_right 1 _)

/-- The series count never exceeds worker budget times batch size for the
batch size fit chooses. -/
theorem length_le_mul_seriesPerBatch (n w : Nat) (hw : 1 ≤ w) :
    n ≤ w * seriesPerBatch n w := by
  rw [seriesPerBatch]
  split
  · next h => omega
  · next h =>
      have hmod := Nat.div_add_mod n w
      have hlt : n % w < w := Nat.mod_lt n (by omega)
      have : w * (1 + n / w) = w + w * (n / w) := by ring
      omega

/-- C5: for N >= 1 series and worker budget W >= 1 (num_parallel_batches =
W // NUM_CPUS_PER_BATCH), the batch size is 1 when N <= W and
1 + N / W otherwise; the contiguous batches cover all N series, there are at
most max(N, 1) of them and at most W of them, and the identifier batches
align positionally with the series batches (the series batches are the image
of the identifier batches). -/
theorem c5_partitioning (W : Nat) (hW : 1 ≤ W) (ids : List Nat)
    (hN : 1 ≤ ids.length) (toSeries : Nat → List SRow) :
    seriesPerBatch ids.length (W / NUM_CPUS_PER_BATCH)
        = (if ids.length ≤ W then 1 else 1 + ids.length / W)
    ∧ ((chunkList (seriesPerBatch ids.length (W / NUM_CPUS_PER_BATCH))
          (ids.map toSeries)).map List.length).sum = ids.length
    ∧ (chunkList (seriesPerBatch ids.length (W / NUM_CPUS_PER_BATCH))
          (ids.map toSeries)).length ≤ max ids.length 1
    ∧ (chunkList (seriesPerBatch ids.length (W / NUM_CPUS_PER_BATCH))
          (ids.map toSeries)).length ≤ W
    ∧ chunkList (seriesPerBatch ids.length (W / NUM_CPUS_PER_BATCH))
          (ids.map toSeries)
        = (chunkList (seriesPerBatch ids.length (W / NUM_CPUS_PER_BATCH)) ids).map
            (List.map toSeries) := by
  have hdiv : W / NUM_CPUS_PER_BATCH = W := by
    simp [NUM_CPUS_PER_BATCH]
  rw [hdiv]
  have hB : 0 < seriesPerBatch ids.length W := seriesPerBatch_pos _ _
  have hlen : (ids.map toSeries).length = ids.length := List.length_map _ _
  refine ⟨rfl, ?_, ?_, ?_, ?_⟩
  · rw [← List.length_flatten,
        chunkList_flatten hB (ids.map toSeries).length _ (Nat.le_refl _), hlen]
  · have h1 := chunkList_count_le_length hB (ids.map toSeries).length
      (ids.map toSeries) (Nat.le_refl _)
    rw [hlen] at h1
    omega
  · refine chunkList_count_le_of_le_mul hB W (ids.map toSeries) ?_
    rw [hlen]
    exact length_le_mul_seriesPerBatch ids.length W hW
  · exact chunkList_map hB toSeries ids.length ids (Nat.le_refl _)

/-- C5 witness: five identifiers over a worker budget of two: batch size 3,
batches of sizes 3 and 2, two batches, aligned with the identifier batches. -/
theorem c5_witness :
    (1 ≤ 2 ∧ 1 ≤ ([10, 20, 30, 40, 50] : List Nat).length)
    ∧ (seriesPerBatch ([10, 20, 30, 40, 50] : List Nat).length
          (2 / NUM_CPUS_PER_BATCH)
        = (if ([10, 20, 30, 40, 50] : List Nat).length ≤ 2 then 1
           else 1 + ([10, 20, 30, 40, 50] : List Nat).length / 2)
    ∧ ((chunkList (seriesPerBatch ([10, 20, 30, 40, 50] : List Nat).length
          (2 / NUM_CPUS_PER_BATCH))
          (([10, 20, 30, 40, 50] : List Nat).map (fun _ => ([] : List SRow)))).map
            List.length).sum = ([10, 20, 30, 40, 50] : List Nat).length
    ∧ (chunkList (seriesPerBatch ([10, 20, 30, 40, 50] : List Nat).length
          (2 / NUM_CPUS_PER_BATCH))
          (([10, 20, 30, 40, 50] : List Nat).map (fun _ => ([] : List SRow)))).length
        ≤ max ([10, 20, 30, 40, 50] : List Nat).length 1
    ∧ (chunkList (seriesPerBatch ([10, 20, 30, 40, 50] : List Nat).length
          (2 / NUM_CPUS_PER_BATCH))
          (([10, 20, 30, 40, 50] : List Nat).map (fun _ => ([] : List SRow)))).length
        ≤ 2
    ∧ chunkList (seriesPerBatch ([10, 20, 30, 40, 50] : List Nat).length
          (2 / NUM_CPUS_PER_BATCH))
          (([10, 20, 30, 40, 50] : List Nat).map (fun _ => ([] : List SRow)))
        = (chunkList (seriesPerBatch ([10, 20, 30, 40, 50] : List Nat).length
            (2 / NUM_CPUS_PER_BATCH)) ([10, 20, 30, 40, 50] : List Nat)).map
              (List.map (fun _ => ([] : List SRow)))) :=
  ⟨⟨by decide, by decide⟩,
   c5_partitioning 2 (by decide) [10, 20, 30, 40, 50] (by decide)
     (fun _ => ([] : List SRow))⟩

/-- Membership in the first-seen fold: an identifier is collected iff it was
already in the accumulator or occurs in the remaining rows. -/
theorem mem_foldl_firstSeen :
    ∀ (rows : List Row) (acc : List Nat) (x : Nat),
      (x ∈ rows.foldl
          (fun acc r => if r.id ∈ acc then acc else acc ++ [r.id]) acc
        ↔ x ∈ acc ∨ ∃ r ∈ rows, r.id = x) := by
  intro rows
  induction rows with
  | nil => intro acc x; simp
  | cons r rs ih =>
      intro acc x
      simp only [List.foldl_cons]
      rw [ih, List.exists_mem_cons_iff]
      by_cases h : r.id ∈ acc
      · rw [if_pos h]
        have h2 : r.id = x → x ∈ acc := fun e => e ▸ h
        tauto
      · rw [if_neg h]
        simp only [List.mem_append, List.mem_singleton]
        have h3 : x = r.id ↔ r.id = x := eq_comm
        tauto

/-- An identifier is a group key of a panel iff some row carries it. -/
theorem mem_groupKeys (rows : List Row) (x : Nat) :
    x ∈ groupKeys rows ↔ ∃ r ∈ rows, r.id = x := by
  rw [groupKeys, List.mem_insertionSort]
  simp only [firstSeenIds]
  rw [mem_foldl_firstSeen rows [] x]
  simp

/-- The group keys of a panel are in ascending order. -/
theorem groupKeys_sorted (rows : List Row) :
    List.Sorted (fun a b : Nat => a ≤ b) (groupKeys rows) :=
  List.sorted_insertionSort _ _

/-- A successful fit records the (sorted) group keys of the history panel as
the canonical identifier list. -/
theorem fit_ok_all_ids {f : Forecaster} {W : Nat} {g : GlobalRng}
    {history : List Row} {ds : ForecastingSchema} {f1 : Forecaster}
    {g1 : GlobalRng} (h : f.fit W g history ds = Except.ok (f1, g1)) :
    f1.all_ids = groupKeys history := by
  rw [Forecaster.fit] at h
  split at h
  · cases h
  · simp only [Except.ok.injEq, Prod.mk.injEq] at h
    rw [← h.1]

/-- A successful group extraction returns exactly the per-identifier groups,
in identifier order. -/
theorem extractGroups_ok_eq :
    ∀ {ids : List Nat} {t : List Row} {gs : List (List SRow)},
      extractGroups ids t = Except.ok gs →
      gs = ids.map (fun i => getGroup t i) := by
  intro ids
  induction ids with
  | nil =>
      intro t gs h
      simp only [extractGroups] at h
      injection h with h2
      rw [← h2]; rfl
  | cons i rest ih =>
      intro t gs h
      simp only [extractGroups] at h
      split at h
      · cases h
      · split at h
        · cases h
        · next gs2 heq =>
            injection h with h2
            rw [← h2, List.map_cons, ih heq]

/-- A per-series forecast has exactly as many rows as the supplied future
frame (the model is asked for horizon len(future_df)). -/
theorem predict_on_series_length {f : Forecaster} {i : Nat}
    {sdf frows : List SRow} (h : f._predict_on_series i sdf = some frows) :
    frows.length = sdf.length := by
  simp only [Forecaster._predict_on_series] at h
  split at h
  · injection h with h2
    rw [← h2, List.length_zipWith, TrainedModel.predict,
        List.length_replicate]
    simp
  · cases h

/-- A successful forecast loop emits, per pair in order, one block of rows
all carrying that pair's identifier, with the block length equal to the
pair's future-frame length. -/
theorem forecastLoop_ok_ids {f : Forecaster} :
    ∀ {ps : List (Nat × List SRow)} {out : List (List Row)},
      f.forecastLoop ps = Except.ok out →
      out.flatten.map (fun r => r.id)
        = ps.flatMap (fun p => List.replicate p.2.length p.1) := by
  intro ps
  induction ps with
  | nil =>
      intro out h
      simp only [Forecaster.forecastLoop] at h
      injection h with h2
      rw [← h2]; rfl
  | cons p rest ih =>
      intro out h
      obtain ⟨i, sdf⟩ := p
      simp only [Forecaster.forecastLoop] at h
      split at h
      · cases h
      · next frows hfr =>
          split at h
          · cases h
          · next others hrec =>
              injection h with h2
              rw [← h2]
              simp only [List.flatten_cons, List.map_append,
                List.flatMap_cons]
              rw [ih hrec, List.map_map]
              congr 1
              have hlen : frows.length = sdf.length :=
                predict_on_series_length hfr
              rw [← hlen]
              exact List.map_const' frows i ▸ rfl

/-- Zipping a list with its image and flat-mapping pairwise is flat-mapping
pointwise. -/
theorem zip_map_flatMap {α β γ : Type} (g : α → β) (h : α → β → List γ) :
    ∀ l : List α,
      (l.zip (l.map g)).flatMap (fun p => h p.1 p.2)
        = l.flatMap (fun i => h i (g i)) := by
  intro l
  induction l with
  | nil => rfl
  | cons x xs ih =>
      simp only [List.map_cons, List.zip_cons_cons, List.flatMap_cons, ih]

/-- A successful predict emits the identifier column as, per trained
identifier in canonical order, that identifier repeated once per future row
supplied for it. -/
theorem predict_ok_row_ids {f : Forecaster} {test : List Row} {c : String}
    {out : ForecastTable} (h : f.predict test c = Except.ok out) :
    out.rows.map (fun r => r.id)
      = f.all_ids.flatMap
          (fun i => List.replicate (getGroup test i).length i) := by
  rw [Forecaster.predict] at h
  split at h
  · cases h
  · split at h
    · cases h
    · next gs hgs =>
        split at h
        · cases h
        · next outs houts =>
            split at h
            · cases h
            · injection h with h2
              rw [← h2]
              have e1 := extractGroups_ok_eq hgs
              subst e1
              have e2 := forecastLoop_ok_ids houts
              simp only [e2]
              exact zip_map_flatMap (fun i => getGroup test i)
                (fun i gr => List.replicate gr.length i) f.all_ids

/-- C4 counterexample: the history panel histEx presents identifier 2 before
identifier 1, so the first-seen order is [2, 1]; fitting records [1, 2]
(pandas groupby sorts the keys), refuting the first-seen-order claim. -/
theorem c4_counterexample_sorted_not_first_seen :
    trainedEx.all_ids = [1, 2]
    ∧ firstSeenIds histEx = [2, 1]
    ∧ trainedEx.all_ids ≠ firstSeenIds histEx :=
  ⟨rfl, rfl, by decide⟩

/-- C4 amended: fit records as the canonical identifier list the identifiers
of the history panel in ascending sorted order (pandas groupby sorts group
keys), not first-seen order; predict emits one block per identifier in that
same canonical order, each block repeating its identifier once per supplied
future row. -/
theorem c4_amended_sorted_ids_and_block_order (f : Forecaster) (W : Nat)
    (g : GlobalRng) (history : List Row) (ds : ForecastingSchema)
    (f1 : Forecaster) (g1 : GlobalRng)
    (hfit : f.fit W g history ds = Except.ok (f1, g1)) :
    List.Sorted (fun a b : Nat => a ≤ b) f1.all_ids
    ∧ (∀ x, x ∈ f1.all_ids ↔ ∃ r ∈ history, r.id = x)
    ∧ (∀ test c out, f1.predict test c = Except.ok out →
        out.rows.map (fun r => r.id)
          = f1.all_ids.flatMap
              (fun i => List.replicate (getGroup test i).length i)) := by
  have hids := fit_ok_all_ids hfit
  refine ⟨hids ▸ groupKeys_sorted history,
    fun x => hids ▸ mem_groupKeys history x, ?_⟩
  intro test c out hp
  exact predict_ok_row_ids hp

/-- C4 witness: the amended statement instantiated on the concrete fit of
histEx and the concrete predict on futEx. -/
theorem c4_witness :
    List.Sorted (fun a b : Nat => a ≤ b) trainedEx.all_ids
    ∧ (2 ∈ trainedEx.all_ids ↔ ∃ r ∈ histEx, r.id = 2)
    ∧ ([ ({ id := 1, time := 2, target := 21, cov := [] } : Row),
         ({ id := 2, time := 2, target := 11, cov := [] } : Row) ].map
           (fun r => r.id)
        = trainedEx.all_ids.flatMap
            (fun i => List.replicate (getGroup futEx i).length i)) := by
  have h := c4_amended_sorted_ids_and_block_order
    (Forecaster.init schemaEx none) 3 g0 histEx schemaEx trainedEx
    { state := 0, seedCalls := 1 } rfl
  exact ⟨h.1, h.2.1 2,
    h.2.2 futEx "pred"
      { predColName := "pred"
        rows := [ { id := 1, time := 2, target := 21, cov := [] },
                  { id := 2, time := 2, target := 11, cov := [] } ] } rfl⟩

/-- Restricting a panel to rows whose identifier is in a super-list of ids
does not change any requested group. -/
theorem getGroup_filter_mem (ids : List Nat) (t : List Row) (i : Nat)
    (hi : i ∈ ids) :
    getGroup (t.filter (fun r => decide (r.id ∈ ids))) i = getGroup t i := by
  simp only [getGroup]
  congr 1
  induction t with
  | nil => rfl
  | cons r rs ih =>
      by_cases h : r.id = i
      · have hmem : r.id ∈ ids := h ▸ hi
        simp [List.filter_cons, h, hmem, hi, ih]
      · by_cases h2 : r.id ∈ ids
        · simp [List.filter_cons, h, h2, ih]
        · simp [List.filter_cons, h, h2, ih]

/-- Group extraction only looks at rows whose identifier is among the
requested identifiers: rows with extraneous identifiers are invisible. -/
theorem extractGroups_filter (ids sub : List Nat) (t : List Row)
    (hsub : ∀ i ∈ sub, i ∈ ids) :
    extractGroups sub (t.filter (fun r => decide (r.id ∈ ids)))
      = extractGroups sub t := by
  induction sub with
  | nil => rfl
  | cons i rest ih =>
      simp only [extractGroups]
      rw [getGroup_filter_mem ids t i (hsub i (List.mem_cons_self i rest)),
          ih (fun j hj => hsub j (List.mem_cons_of_mem _ hj))]

/-- When some requested identifier has no rows in the panel, group extraction
raises a KeyError (for the first such identifier). -/
theorem extractGroups_missing_key (ids : List Nat) (t : List Row) (x : Nat)
    (hx : x ∈ ids) (hempty : getGroup t x = []) :
    ∃ y, extractGroups ids t = Except.error (PyError.keyError y) := by
  induction ids with
  | nil => cases hx
  | cons i rest ih =>
      by_cases hgi : (getGroup t i).isEmpty
      · exact ⟨i, by simp only [extractGroups]; rw [if_pos hgi]⟩
      · rcases List.mem_cons.mp hx with he | hx2
        · subst he
          exact absurd (by rw [hempty]; rfl) hgi
        · obtain ⟨y, hy⟩ := ih hx2
          refine ⟨y, ?_⟩
          simp only [extractGroups]
          rw [if_neg hgi, hy]

/-- Every row of a successful forecast table carries a trained identifier. -/
theorem predict_ok_ids_subset {f : Forecaster} {test : List Row} {c : String}
    {out : ForecastTable} (h : f.predict test c = Except.ok out) :
    ∀ r ∈ out.rows, r.id ∈ f.all_ids := by
  intro r hr
  have hm := predict_ok_row_ids h
  have hmm : r.id ∈ out.rows.map (fun r => r.id) :=
    List.mem_map_of_mem _ hr
  rw [hm] at hmm
  obtain ⟨i, hi, hrep⟩ := List.mem_flatMap.mp hmm
  rwa [List.eq_of_mem_replicate hrep]

/-- C1 amended: on a trained ensemble, a future-panel identifier that was
never trained is invisible: deleting all such rows leaves the predict result
unchanged, and every row of a successful output carries a trained identifier
(so a never-trained identifier contributes no rows); but omitting a trained
identifier from the future panel makes predict raise a KeyError rather than
complete. -/
theorem c1_extraneous_id_ignored_missing_id_raises (f : Forecaster)
    (test : List Row) (c : String) (htr : f._is_trained = true) :
    (f.predict (test.filter (fun r => decide (r.id ∈ f.all_ids))) c
        = f.predict test c)
    ∧ (∀ out, f.predict test c = Except.ok out →
        ∀ r ∈ out.rows, r.id ∈ f.all_ids)
    ∧ (∀ x ∈ f.all_ids, getGroup test x = [] →
        ∃ y, f.predict test c = Except.error (PyError.keyError y)) := by
  refine ⟨?_, fun out hp => predict_ok_ids_subset hp, ?_⟩
  · rw [Forecaster.predict, Forecaster.predict,
        extractGroups_filter f.all_ids f.all_ids test (fun i h => h)]
  · intro x hx hempty
    obtain ⟨y, hy⟩ :=
      extractGroups_missing_key f.all_ids test x hx hempty
    refine ⟨y, ?_⟩
    rw [Forecaster.predict]
    simp only [htr, Bool.not_true, Bool.false_eq_true, if_false]
    rw [hy]

/-- C1 counterexample: the trained ensemble knows identifiers 1 and 2; a
future panel holding only identifier 1 makes predict raise KeyError 2,
refuting the claim that predict completes without raising when a trained
identifier is omitted. -/
theorem c1_counterexample_missing_trained_id_raises :
    trainedEx.predict futOnly1 "pred" = Except.error (PyError.keyError 2) :=
  rfl

/-- C1 witness: the amended statement instantiated on the concrete trained
ensemble: filtering futEx to trained identifiers changes nothing, and
predicting on the panel missing identifier 2 raises a KeyError. -/
theorem c1_witness :
    (trainedEx.predict
        (futEx.filter (fun r => decide (r.id ∈ trainedEx.all_ids))) "pred"
      = trainedEx.predict futEx "pred")
    ∧ (∃ y, trainedEx.predict futOnly1 "pred"
        = Except.error (PyError.keyError y)) := by
  have h1 := c1_extraneous_id_ignored_missing_id_raises trainedEx futEx
    "pred" rfl
  have h2 := c1_extraneous_id_ignored_missing_id_raises trainedEx futOnly1
    "pred" rfl
  exact ⟨h1.1, h2.2.2 2 (by decide) rfl⟩
